import Mathlib

/-!
Verification of the bandwidth plugin (plugins/meta/bandwidth/main.go) and the
veth link helpers (pkg/ip/link_linux.go) of the containerz-plugin repository.

The Go code is shallowly embedded: pure functions become Lean functions,
kernel/netlink effects become explicit environment records of oracle
functions, unsigned machine integers become `Nat` (with explicit `% 2^32`
where Go truncates to uint32), and fallible Go functions return `Except`.
-/

instance {ε α : Type} [DecidableEq ε] [DecidableEq α] : DecidableEq (Except ε α) := fun x y =>
  match x, y with
  | .error a, .error b =>
    if h : a = b then isTrue (by rw [h]) else isFalse (fun c => h (by injection c))
  | .error _, .ok _ => isFalse (fun h => Except.noConfusion h)
  | .ok _, .error _ => isFalse (fun h => Except.noConfusion h)
  | .ok a, .ok b =>
    if h : a = b then isTrue (by rw [h]) else isFalse (fun c => h (by injection c))

namespace Utils

/-- Modelled from the spec: `utils.MustFormatHashWithPrefix` (pkg/utils, not
under src/) returns the fixed prefix followed by the hex encoding of a
deterministic hash of the input string, truncated to `maxLength` characters.
The concrete hash (sha512 in the library) is stood in for by a deterministic
polynomial hash; every property proved below depends only on the digest being
a pure, fixed-width function of the input string. -/
def polyHash (s : String) : Nat :=
  s.foldl (fun a c => (a * 131 + c.toNat) % 2 ^ 64) 5381

/-- One hexadecimal digit character for `n < 16`. -/
def hexDigit (n : Nat) : Char :=
  if n < 10 then Char.ofNat (48 + n) else Char.ofNat (87 + n)

/-- Fixed-width big-endian hexadecimal rendering of `n` (width `w` digits). -/
def toHexFixed (n : Nat) : Nat → List Char
  | 0 => []
  | w + 1 => toHexFixed (n / 16) w ++ [hexDigit (n % 16)]

/-- Modelled from the spec: the hash-and-truncate name formatter used by
`getIfbDeviceName`; prefix, then hex digest, truncated to `maxLength`. -/
def MustFormatHashWithPrefix (maxLength : Nat) (pre : String) (toFormat : String) : String :=
  ((pre.data ++ toHexFixed (polyHash toFormat) 16).take maxLength).asString

theorem toHexFixed_length (n w : Nat) : (toHexFixed n w).length = w := by
  induction w generalizing n with
  | zero => rfl
  | succ w ih => simp [toHexFixed, ih]

end Utils

namespace Bandwidth

/-- plugins/meta/bandwidth/main.go constants. -/
def maxIfbDeviceLength : Nat := 15

def ifbDevicePre : String := "bwp"

/-- `BandwidthEntry` from main.go: unsigned 64-bit rates (bits/second) and
bursts (bits) for each direction. -/
structure BandwidthEntry where
  ingressRate : Nat
  ingressBurst : Nat
  egressRate : Nat
  egressBurst : Nat
deriving DecidableEq, Repr

/-- `(*BandwidthEntry).isZero` from main.go. -/
def BandwidthEntry.isZero (bw : BandwidthEntry) : Bool :=
  bw.ingressBurst == 0 && bw.ingressRate == 0 && bw.egressBurst == 0 && bw.egressRate == 0

/-- An entry of the previous chain result's interface list
(cni types `current.Interface`): `Sandbox = ""` marks a host-side entry. -/
structure Interface where
  name : String
  mac : String
  sandbox : String
deriving DecidableEq, Repr

/-- The previous chain result, reduced to the interface list consumed here. -/
structure Result where
  interfaces : List Interface
deriving DecidableEq, Repr

/-- `PluginConf` from main.go after JSON decoding: the top-level embedded
`*BandwidthEntry`, the `runtimeConfig.bandwidth` entry, the network name and
the (already version-converted) previous result. -/
structure PluginConf where
  name : String
  bandwidthEntry : Option BandwidthEntry
  runtimeBandwidth : Option BandwidthEntry
  prevResult : Option Result
deriving DecidableEq, Repr

/-- `skel.CmdArgs` fields consumed by the plugin. -/
structure CmdArgs where
  containerID : String
  ifName : String
deriving DecidableEq, Repr

/-- `getBandwidth` from main.go: the runtime-config entry is used only when
the top-level entry is absent. -/
def getBandwidth (conf : PluginConf) : Option BandwidthEntry :=
  if conf.bandwidthEntry.isNone && conf.runtimeBandwidth.isSome then
    conf.runtimeBandwidth
  else
    conf.bandwidthEntry

/-- `validateRateAndBurst` from main.go. `math.MaxUint32 = 2^32 - 1`. -/
def validateRateAndBurst (rate burst : Nat) : Except String Unit :=
  if burst == 0 && rate != 0 then
    .error "if rate is set, burst must also be set"
  else if rate == 0 && burst != 0 then
    .error "if burst is set, rate must also be set"
  else if burst / 8 ≥ 2 ^ 32 - 1 then
    .error "burst cannot be more than 4GB"
  else
    .ok ()

/-- `getIfbDeviceName` from main.go: hash of the bare concatenation
`networkName + containerID`. -/
def getIfbDeviceName (networkName : String) (containerID : String) : String :=
  Utils.MustFormatHashWithPrefix maxIfbDeviceLength ifbDevicePre (networkName ++ containerID)

/-- `parseConfig` from main.go, after JSON decoding (decoding itself and the
prev-result schema conversion are external library calls): validate both
directions of the effective bandwidth entry when one is present. -/
def parseConfig (conf : PluginConf) : Except String PluginConf :=
  match getBandwidth conf with
  | some bandwidth =>
    match validateRateAndBurst bandwidth.ingressRate bandwidth.ingressBurst with
    | .error e => .error e
    | .ok _ =>
      match validateRateAndBurst bandwidth.egressRate bandwidth.egressBurst with
      | .error e => .error e
      | .ok _ => .ok conf
  | none => .ok conf

/-- A kernel queueing discipline as the plugin distinguishes them: a
token-bucket filter with its rate/limit/buffer, the kernel-default
`pfifo_fast`, or any other kind. -/
inductive Qdisc where
  | tbf (rate : Nat) (limit : Nat) (buffer : Nat)
  | pfifoFast
  | other (kind : String)
deriving DecidableEq, Repr

def Qdisc.isPfifoFast : Qdisc → Bool
  | .pfifoFast => true
  | _ => false

def Qdisc.isTbf : Qdisc → Bool
  | .tbf _ _ _ => true
  | _ => false

/-- `SafeQdiscList` from main.go: list the link's qdiscs and filter out
`pfifo_fast` entries. The raw listing is the oracle result of
`netlinksafe.QdiscList`. -/
def SafeQdiscList (qdiscListResult : Except String (List Qdisc)) : Except String (List Qdisc) :=
  match qdiscListResult with
  | .error e => .error e
  | .ok qdiscs => .ok (qdiscs.filter (fun q => !q.isPfifoFast))

/-- The per-direction qdisc scan of `cmdCheck` (main.go): walk the listed
qdiscs in order; a non-Tbf entry stops the scan (Go `break`); each Tbf entry
must match rate, then limit, then buffer exactly. -/
def checkTbfLoop (rateInBytes limitInBytes bufferInBytes : Nat) : List Qdisc → Except String Unit
  | [] => .ok ()
  | .tbf r l b :: rest =>
    if r != rateInBytes then .error "Rate doesn't match"
    else if l != limitInBytes then .error "Limit doesn't match"
    else if b != bufferInBytes then .error "Buffer doesn't match"
    else checkTbfLoop rateInBytes limitInBytes bufferInBytes rest
  | _ :: _ => .ok ()

/-- One direction of `cmdCheck`'s verification (main.go lines 309-331 and
348-370): filtered listing must be nonempty, then the Tbf scan runs. -/
def checkDirection (rateInBytes limitInBytes bufferInBytes : Nat)
    (qdiscListResult : Except String (List Qdisc)) : Except String Unit :=
  match SafeQdiscList qdiscListResult with
  | .error e => .error e
  | .ok qdiscs =>
    if qdiscs.length == 0 then .error "Failed to find qdisc"
    else checkTbfLoop rateInBytes limitInBytes bufferInBytes qdiscs

/-- A host-namespace link as cmdAdd/cmdCheck consume it: its name, hardware
address and MTU. -/
structure Link where
  name : String
  mac : String
  mtu : Int
deriving DecidableEq, Repr

/-- Oracle environment for the kernel/netlink effects of main.go. `buffer`,
`limit` and `latency` stand for the shaping-parameter helpers of ifb.go (not
under src/): per the spec they are pure deterministic functions of
(rateBytes, burstBytes-as-uint32) plus the fixed latency constant, shared by
Add and Check. -/
structure NetEnv where
  nsValid : Bool
  peerIndex : String → Int
  linkNameByIndex : Int → Option String
  linkByName : String → Except String Link
  qdiscList : String → Except String (List Qdisc)
  buffer : Nat → Nat → Nat
  limit : Nat → Nat → Nat → Nat
  latency : Nat
  createIngressQdisc : Nat → Nat → String → Except String Unit
  createIfb : String → Int → Except String Unit
  createEgressQdisc : Nat → Nat → String → String → Except String Unit

/-- `getMTU` from main.go. -/
def getMTU (env : NetEnv) (deviceName : String) : Except String Int :=
  match env.linkByName deviceName with
  | .error e => .error e
  | .ok link => .ok link.mtu

/-- `getHostInterface` from main.go: resolve the container interface's veth
peer index inside the container namespace, look the peer up by index in the
host namespace, and find it by name among the previous result's entries with
no sandbox tag. -/
def getHostInterface (env : NetEnv) (interfaces : List Interface)
    (containerIfName : String) : Except String Interface :=
  if interfaces.length == 0 then .error "no interfaces provided"
  else
    let peerIndex := env.peerIndex containerIfName
    if peerIndex ≤ 0 then
      .error ("container interface " ++ containerIfName ++ " has no veth peer")
    else
      match env.linkNameByIndex peerIndex with
      | none => .error "veth peer is not in host ns"
      | some linkName =>
        match interfaces.find? (fun iface => iface.sandbox == "" && iface.name == linkName) with
        | some iface => .ok iface
        | none => .error "no veth peer of container interface found in host ns"

/-- Outcome of a plugin command: a returned result, a returned error, or a Go
runtime panic (an uncontrolled abort, e.g. a nil-pointer dereference). -/
inductive Outcome where
  | ok
  | error (msg : String)
  | nilPanic
deriving DecidableEq, Repr

/-- One direction block of `cmdCheck` given the direction's rate and burst:
recompute rate/buffer/limit exactly as Add does and scan the link's qdiscs. -/
def checkDirectionFor (env : NetEnv) (rate burst : Nat) (linkName : String) :
    Except String Unit :=
  let rateInBytes := rate / 8
  let burstInBytes := burst / 8
  let bufferInBytes := env.buffer rateInBytes (burstInBytes % 2 ^ 32)
  let limitInBytes := env.limit rateInBytes env.latency (burstInBytes % 2 ^ 32)
  checkDirection rateInBytes limitInBytes bufferInBytes (env.qdiscList linkName)

/-- `cmdCheck` from main.go. The effective bandwidth entry is read *without*
a nil guard (`bandwidth := getBandwidth(bwConf)` followed immediately by
`bandwidth.IngressRate`), so an absent entry is a nil-pointer dereference:
modelled as `Outcome.nilPanic`. -/
def cmdCheck (env : NetEnv) (args : CmdArgs) (conf : PluginConf) : Outcome :=
  match parseConfig conf with
  | .error e => .error e
  | .ok bwConf =>
    match bwConf.prevResult with
    | none => .error "must be called as a chained plugin"
    | some result =>
      if !env.nsValid then .error "failed to open netns"
      else
        match getHostInterface env result.interfaces args.ifName with
        | .error e => .error e
        | .ok hostInterface =>
          match env.linkByName hostInterface.name with
          | .error e => .error e
          | .ok link =>
            match getBandwidth bwConf with
            | none => .nilPanic
            | some bandwidth =>
              let ingress : Except String Unit :=
                if bandwidth.ingressRate > 0 && bandwidth.ingressBurst > 0 then
                  checkDirectionFor env bandwidth.ingressRate bandwidth.ingressBurst link.name
                else .ok ()
              match ingress with
              | .error e => .error e
              | .ok _ =>
                let egress : Except String Unit :=
                  if bandwidth.egressRate > 0 && bandwidth.egressBurst > 0 then
                    let ifbDeviceName := getIfbDeviceName bwConf.name args.containerID
                    match env.linkByName ifbDeviceName with
                    | .error e => .error ("get ifb device: " ++ e)
                    | .ok ifbDevice =>
                      checkDirectionFor env bandwidth.egressRate bandwidth.egressBurst ifbDevice.name
                  else .ok ()
                match egress with
                | .error e => .error e
                | .ok _ => .ok

/-- `cmdAdd` from main.go: with an absent or all-zero effective entry the
previous result is printed unchanged; otherwise the host interface is
resolved and each configured direction is shaped, the egress path creating
the auxiliary IFB device and appending it to the result's interface list. -/
def cmdAdd (env : NetEnv) (args : CmdArgs) (conf0 : PluginConf) :
    Except String (Option Result) :=
  match parseConfig conf0 with
  | .error e => .error e
  | .ok conf =>
    match getBandwidth conf with
    | none => .ok conf.prevResult
    | some bandwidth =>
      if bandwidth.isZero then .ok conf.prevResult
      else
        match conf.prevResult with
        | none => .error "must be called as chained plugin"
        | some result =>
          if !env.nsValid then .error "failed to open netns"
          else
            match getHostInterface env result.interfaces args.ifName with
            | .error e => .error e
            | .ok hostInterface =>
              let ingress : Except String Unit :=
                if bandwidth.ingressRate > 0 && bandwidth.ingressBurst > 0 then
                  env.createIngressQdisc bandwidth.ingressRate bandwidth.ingressBurst
                    hostInterface.name
                else .ok ()
              match ingress with
              | .error e => .error e
              | .ok _ =>
                if bandwidth.egressRate > 0 && bandwidth.egressBurst > 0 then
                  match getMTU env hostInterface.name with
                  | .error e => .error e
                  | .ok mtu =>
                    let ifbDeviceName := getIfbDeviceName conf.name args.containerID
                    match env.createIfb ifbDeviceName mtu with
                    | .error e => .error e
                    | .ok _ =>
                      match env.linkByName ifbDeviceName with
                      | .error e => .error e
                      | .ok ifbDevice =>
                        let result2 : Result :=
                          ⟨result.interfaces ++ [⟨ifbDeviceName, ifbDevice.mac, ""⟩]⟩
                        match env.createEgressQdisc bandwidth.egressRate bandwidth.egressBurst
                            hostInterface.name ifbDeviceName with
                        | .error e => .error e
                        | .ok _ => .ok (some result2)
                else .ok (some result)

end Bandwidth

namespace Ip

/-- The two shapes of a `netlinksafe.LinkByName` failure the ip package
distinguishes: the typed `netlink.LinkNotFoundError`, or any other error. -/
inductive LookupErr where
  | linkNotFound
  | other (msg : String)
deriving DecidableEq, Repr

/-- A link as pkg/ip/link_linux.go consumes it: name, whether it is a
veth-kind link, and the kernel-reported parent index (`IFLA_LINK`). -/
structure Link where
  name : String
  isVeth : Bool
  parentIndex : Int
deriving DecidableEq, Repr

/-- An assigned address, with the global-unicast predicate the code tests. -/
structure Addr where
  ipNet : String
  isGlobalUnicast : Bool
deriving DecidableEq, Repr

/-- Errors returned by the link helpers: the package sentinel
`ErrLinkNotFound`, or an error wrapped with operation context. -/
inductive IpError where
  | errLinkNotFound
  | wrapped (msg : String)
deriving DecidableEq, Repr

/-- Oracle environment for the netlink and ethtool effects of
pkg/ip/link_linux.go. -/
structure LinkEnv where
  linkByName : String → Except LookupErr Link
  linkDel : Link → Except String Unit
  addrList : Link → Except String (List Addr)
  ethtoolNew : Except String Unit
  ethtoolStats : String → Except String (List (String × Nat))

/-- `DelLinkByName` from link_linux.go. -/
def DelLinkByName (env : LinkEnv) (ifName : String) : Except IpError Unit :=
  match env.linkByName ifName with
  | .error .linkNotFound => .error .errLinkNotFound
  | .error (.other e) => .error (.wrapped ("failed to lookup " ++ ifName ++ ": " ++ e))
  | .ok iface =>
    match env.linkDel iface with
    | .error e => .error (.wrapped ("failed to delete " ++ ifName ++ ": " ++ e))
    | .ok _ => .ok ()

/-- `DelLinkByNameAddr` from link_linux.go: capture the link's addresses,
delete it, and return the global-unicast addresses. -/
def DelLinkByNameAddr (env : LinkEnv) (ifName : String) : Except IpError (List Addr) :=
  match env.linkByName ifName with
  | .error .linkNotFound => .error .errLinkNotFound
  | .error (.other e) => .error (.wrapped ("failed to lookup " ++ ifName ++ ": " ++ e))
  | .ok iface =>
    match env.addrList iface with
    | .error e => .error (.wrapped ("failed to get IP addresses for " ++ ifName ++ ": " ++ e))
    | .ok addrs =>
      match env.linkDel iface with
      | .error e => .error (.wrapped ("failed to delete " ++ ifName ++ ": " ++ e))
      | .ok _ => .ok (addrs.filter (fun a => a.isGlobalUnicast))

/-- `GetVethPeerIfindex` from link_linux.go: look up the link, require a
veth, take the kernel-reported parent index when positive, otherwise fall
back to the ethtool `peer_ifindex` statistic, which alone is range-checked
against 1..32767. -/
def GetVethPeerIfindex (env : LinkEnv) (ifName : String) : Except String (Link × Int) :=
  match env.linkByName ifName with
  | .error _ => .error ("could not look up " ++ ifName)
  | .ok link =>
    if !link.isVeth then .error ("interface " ++ ifName ++ " was not a veth interface")
    else
      if link.parentIndex ≤ 0 then
        match env.ethtoolNew with
        | .error _ => .error "failed to initialize ethtool"
        | .ok _ =>
          match env.ethtoolStats link.name with
          | .error _ => .error "failed to request ethtool stats"
          | .ok stats =>
            match stats.lookup "peer_ifindex" with
            | none => .error "failed to find peer_ifindex in ethtool stats"
            | some n =>
              if n > 32767 || n == 0 then .error "invalid peer_ifindex"
              else .ok (link, (n : Int))
      else .ok (link, link.parentIndex)

/-- Outcome of one `makeVethPair` creation attempt for a given peer name:
success, the duplicate-name condition (`os.IsExist`), or any other error. -/
inductive CreateErr where
  | isExist
  | other (msg : String)
deriving DecidableEq, Repr

/-- Oracle environment for `makeVeth`: the creation attempt's outcome per
peer name, the i-th self-generated random name (`RandomVethName`, whose
entropy is external), and the `peerExists` probe. -/
structure VethEnv where
  create : String → Option CreateErr
  randomName : Nat → String
  peerExists : String → Bool

/-- Terminal outcome of `makeVeth`: success with the used peer name, the
immediate collision error, a wrapped other-creation error, or the
allocation-exhausted error after the retry loop ends. -/
inductive VethOutcome where
  | success (peerName : String)
  | collision (name peerName : String)
  | failedOther (msg : String)
  | exhausted
deriving DecidableEq, Repr

/-- The retry loop of `makeVeth` from link_linux.go, starting at generation
index `i` with `fuel` iterations left; returns the number of creation
attempts performed together with the outcome. A duplicate-name failure is
retried only when the colliding name was self-generated (`vethPeerName`
empty) and the peer name is the existing one. -/
def makeVethFrom (env : VethEnv) (name vethPeerName : String) : Nat → Nat → Nat × VethOutcome
  | _, 0 => (0, .exhausted)
  | i, fuel + 1 =>
    let peerName := if vethPeerName != "" then vethPeerName else env.randomName i
    match env.create peerName with
    | none => (1, .success peerName)
    | some .isExist =>
      if env.peerExists peerName && vethPeerName == "" then
        let r := makeVethFrom env name vethPeerName (i + 1) fuel
        (r.1 + 1, r.2)
      else (1, .collision name peerName)
    | some (.other m) => (1, .failedOther ("failed to make veth pair: " ++ m))

/-- `makeVeth` from link_linux.go: up to 10 creation attempts. -/
def makeVeth (env : VethEnv) (name vethPeerName : String) : Nat × VethOutcome :=
  makeVethFrom env name vethPeerName 0 10

end Ip

namespace Bandwidth

/-- Modelled from the spec: `TeardownIfb` (ifb.go, not under src/) deletes
the auxiliary device by name via the ip package and treats an already-absent
device — the NotFound sentinel — as success. -/
def TeardownIfb (env : Ip.LinkEnv) (deviceName : String) : Except String Unit :=
  match Ip.DelLinkByNameAddr env deviceName with
  | .error .errLinkNotFound => .ok ()
  | .error (.wrapped m) => .error m
  | .ok _ => .ok ()

/-- `cmdDel` from main.go: recompute the deterministic auxiliary device name
and tear it down. -/
def cmdDel (env : Ip.LinkEnv) (args : CmdArgs) (conf0 : PluginConf) : Except String Unit :=
  match parseConfig conf0 with
  | .error e => .error e
  | .ok conf => TeardownIfb env (getIfbDeviceName conf.name args.containerID)

end Bandwidth

/-- C2 counterexample: at `rate = 100`, `burst = 8 * (2^32 - 1)` both values
are nonzero and `burst / 8 < 2^32`, yet `validateRateAndBurst` rejects the
pair (the code's bound is `math.MaxUint32 = 2^32 - 1`, not `2^32`), so the
claimed iff fails as stated. -/
theorem validateRateAndBurst_claim_counterexample :
    (100 : Nat) ≠ 0 ∧ (34359738360 : Nat) ≠ 0 ∧ (34359738360 : Nat) / 8 < 2 ^ 32 ∧
      Bandwidth.validateRateAndBurst 100 34359738360 ≠ .ok () := by
  refine ⟨by decide, by decide, by decide, by decide⟩

/-- C2 (amended): `validateRateAndBurst rate burst` succeeds iff both are
zero, or both are nonzero and `burst / 8 < 2^32 - 1`; in particular
`validate(0,0)` succeeds and `validate(1000,0)`, `validate(0,500)`,
`validate(100, 8*2^32)` fail. -/
theorem validateRateAndBurst_ok_iff :
    (∀ rate burst : Nat,
      Bandwidth.validateRateAndBurst rate burst = .ok () ↔
        (rate = 0 ∧ burst = 0) ∨ (rate ≠ 0 ∧ burst ≠ 0 ∧ burst / 8 < 2 ^ 32 - 1)) ∧
    Bandwidth.validateRateAndBurst 0 0 = .ok () ∧
    Bandwidth.validateRateAndBurst 1000 0 ≠ .ok () ∧
    Bandwidth.validateRateAndBurst 0 500 ≠ .ok () ∧
    Bandwidth.validateRateAndBurst 100 (8 * 2 ^ 32) ≠ .ok () := by
  refine ⟨fun rate burst => ?_, by decide, by decide, by decide, by decide⟩
  simp only [Bandwidth.validateRateAndBurst]
  split_ifs with h1 h2 h3
  · simp only [Bool.and_eq_true, beq_iff_eq, bne_iff_ne, ne_eq] at h1
    exact iff_of_false (by simp) (by omega)
  · simp only [Bool.and_eq_true, beq_iff_eq, bne_iff_ne, ne_eq] at h1 h2
    exact iff_of_false (by simp) (by omega)
  · simp only [Bool.and_eq_true, beq_iff_eq, bne_iff_ne, ne_eq] at h1 h2
    exact iff_of_false (by simp) (by omega)
  · simp only [Bool.and_eq_true, beq_iff_eq, bne_iff_ne, ne_eq] at h1 h2
    exact iff_of_true rfl (by omega)

/-- The qdisc scan of `cmdCheck` succeeds exactly when every token-bucket
qdisc in the leading all-Tbf segment of the list carries the expected
rate/limit/buffer; the scan stops at the first non-Tbf qdisc. -/
theorem checkTbfLoop_ok_iff (r l b : Nat) (qs : List Bandwidth.Qdisc) :
    Bandwidth.checkTbfLoop r l b qs = .ok () ↔
      ∀ q ∈ qs.takeWhile Bandwidth.Qdisc.isTbf, q = Bandwidth.Qdisc.tbf r l b := by
  induction qs with
  | nil => simp [Bandwidth.checkTbfLoop]
  | cons q rest ih =>
    cases q with
    | tbf tr tl tb =>
      simp only [Bandwidth.checkTbfLoop, List.takeWhile_cons, Bandwidth.Qdisc.isTbf,
        if_true, List.forall_mem_cons]
      split_ifs with h1 h2 h3
      · simp only [bne_iff_ne, ne_eq] at h1
        refine iff_of_false (by simp) ?_
        rintro ⟨hq, -⟩
        injection hq with e1 e2 e3
        exact h1 e1
      · simp only [bne_iff_ne, ne_eq] at h2
        refine iff_of_false (by simp) ?_
        rintro ⟨hq, -⟩
        injection hq with e1 e2 e3
        exact h2 e2
      · simp only [bne_iff_ne, ne_eq] at h3
        refine iff_of_false (by simp) ?_
        rintro ⟨hq, -⟩
        injection hq with e1 e2 e3
        exact h3 e3
      · simp only [bne_iff_ne, ne_eq, not_not] at h1 h2 h3
        subst h1
        subst h2
        subst h3
        rw [ih]
        simp
    | pfifoFast => simp [Bandwidth.checkTbfLoop, List.takeWhile_cons, Bandwidth.Qdisc.isTbf]
    | other k => simp [Bandwidth.checkTbfLoop, List.takeWhile_cons, Bandwidth.Qdisc.isTbf]

/-- C1 counterexample: a link whose only queueing discipline is a
non-token-bucket one (e.g. `noqueue`) passes the configured-direction
verification of `cmdCheck` even though no token-bucket discipline with the
recomputed parameters is present, so a matching token-bucket discipline is
not in fact required. -/
theorem cmdCheck_direction_counterexample :
    Bandwidth.checkDirection 125000 10000 5000 (.ok [Bandwidth.Qdisc.other "noqueue"]) = .ok () ∧
      (∀ q ∈ [Bandwidth.Qdisc.other "noqueue"], Bandwidth.Qdisc.isTbf q = false) := by
  decide

/-- C1 (amended): for a configured direction, `cmdCheck`'s verification
fails when the filtered qdisc listing is empty, and otherwise scans the
listing in order only up to the first non-token-bucket qdisc, succeeding iff
every token-bucket qdisc in that leading segment has exactly the recomputed
rate, limit and buffer; a listing whose first entry is not a token-bucket
qdisc is accepted without any match being required. -/
theorem cmdCheck_direction_ok_iff (r l b : Nat) (raw : List Bandwidth.Qdisc) :
    Bandwidth.checkDirection r l b (.ok raw) = .ok () ↔
      raw.filter (fun q => !q.isPfifoFast) ≠ [] ∧
        ∀ q ∈ (raw.filter (fun q => !q.isPfifoFast)).takeWhile Bandwidth.Qdisc.isTbf,
          q = Bandwidth.Qdisc.tbf r l b := by
  by_cases h : raw.filter (fun q => !q.isPfifoFast) = []
  · simp [Bandwidth.checkDirection, Bandwidth.SafeQdiscList, h]
  · have hlen : ((raw.filter (fun q => !q.isPfifoFast)).length == 0) = false := by
      simp [List.length_eq_zero, h]
    simp [Bandwidth.checkDirection, Bandwidth.SafeQdiscList, hlen, h, checkTbfLoop_ok_iff]

/-- C1 witness: a listing holding exactly the matching token-bucket qdisc is
accepted. -/
theorem cmdCheck_direction_ok_iff_witness :
    Bandwidth.checkDirection 10 20 30 (.ok [Bandwidth.Qdisc.tbf 10 20 30]) = .ok () :=
  (cmdCheck_direction_ok_iff 10 20 30 [Bandwidth.Qdisc.tbf 10 20 30]).mpr (by decide)

/-- C3: a parseable configuration with no bandwidth entry at either the top
level or under the runtime config drives `cmdCheck` into the unguarded
dereference of the nil effective bandwidth entry (`bandwidth.IngressRate`
with `bandwidth == nil`), an uncontrolled abort rather than a returned
error: the netns opens, the previous result holds the host-side peer
`veth123` of container interface `eth0`, the host link resolves, and then
the command panics. -/
theorem cmdCheck_nil_bandwidth_panics :
    Bandwidth.parseConfig ⟨"mynet", none, none, some ⟨[⟨"veth123", "", ""⟩]⟩⟩ =
        .ok ⟨"mynet", none, none, some ⟨[⟨"veth123", "", ""⟩]⟩⟩ ∧
      Bandwidth.cmdCheck
        { nsValid := true
          peerIndex := fun _ => 5
          linkNameByIndex := fun i => if i = 5 then some "veth123" else none
          linkByName := fun n => .ok ⟨n, "0a:58:0a:f4:00:01", 1500⟩
          qdiscList := fun _ => .ok []
          buffer := fun _ _ => 0
          limit := fun _ _ _ => 0
          latency := 0
          createIngressQdisc := fun _ _ _ => .ok ()
          createIfb := fun _ _ => .ok ()
          createEgressQdisc := fun _ _ _ _ => .ok () }
        ⟨"cid1", "eth0"⟩
        ⟨"mynet", none, none, some ⟨[⟨"veth123", "", ""⟩]⟩⟩ = .nilPanic :=
  ⟨rfl, rfl⟩

theorem validate_zero_ok : Bandwidth.validateRateAndBurst 0 0 = .ok () := rfl

/-- C6: whenever the effective bandwidth entry is absent or all four of its
fields are zero, `cmdAdd` returns the previous chain result unchanged — no
interface entries are appended and no prior entries are modified. -/
theorem cmdAdd_zero_passthrough (env : Bandwidth.NetEnv) (args : Bandwidth.CmdArgs)
    (conf : Bandwidth.PluginConf)
    (h : Bandwidth.getBandwidth conf = none ∨
      ∃ bw, Bandwidth.getBandwidth conf = some bw ∧ bw.isZero = true) :
    Bandwidth.cmdAdd env args conf = .ok conf.prevResult := by
  rcases h with h | ⟨bw, hbw, hz⟩
  · simp [Bandwidth.cmdAdd, Bandwidth.parseConfig, h]
  · have hfields : bw.ingressBurst = 0 ∧ bw.ingressRate = 0 ∧
        bw.egressBurst = 0 ∧ bw.egressRate = 0 := by
      have := hz
      simp only [Bandwidth.BandwidthEntry.isZero, Bool.and_eq_true, beq_iff_eq] at this
      tauto
    obtain ⟨h1, h2, h3, h4⟩ := hfields
    simp [Bandwidth.cmdAdd, Bandwidth.parseConfig, hbw, h1, h2, h3, h4, validate_zero_ok, hz]

/-- C6 witness: an all-zero top-level entry leaves a concrete previous
result untouched. -/
theorem cmdAdd_zero_passthrough_witness :
    Bandwidth.cmdAdd
      { nsValid := true
        peerIndex := fun _ => 3
        linkNameByIndex := fun _ => some "veth0"
        linkByName := fun n => .ok ⟨n, "0a:58:0a:f4:00:02", 1500⟩
        qdiscList := fun _ => .ok []
        buffer := fun _ _ => 0
        limit := fun _ _ _ => 0
        latency := 0
        createIngressQdisc := fun _ _ _ => .ok ()
        createIfb := fun _ _ => .ok ()
        createEgressQdisc := fun _ _ _ _ => .ok () }
      ⟨"cid1", "eth0"⟩
      ⟨"net1", some ⟨0, 0, 0, 0⟩, none, some ⟨[⟨"veth0", "0a:58:0a:f4:00:02", ""⟩]⟩⟩ =
      .ok (some ⟨[⟨"veth0", "0a:58:0a:f4:00:02", ""⟩]⟩) :=
  cmdAdd_zero_passthrough _ _ _ (Or.inr ⟨⟨0, 0, 0, 0⟩, rfl, rfl⟩)

/-- The formatted name never exceeds the requested maximum length. -/
theorem MustFormatHashWithPrefix_length_le (maxLength : Nat) (pre s : String) :
    (Utils.MustFormatHashWithPrefix maxLength pre s).length ≤ maxLength := by
  have h : (Utils.MustFormatHashWithPrefix maxLength pre s).length =
      ((pre.data ++ Utils.toHexFixed (Utils.polyHash s) 16).take maxLength).length := rfl
  rw [h, List.length_take]
  exact min_le_left _ _

/-- The formatted name keeps the prefix intact when it fits the maximum. -/
theorem MustFormatHashWithPrefix_take_pre (maxLength : Nat) (pre s : String)
    (h : pre.length ≤ maxLength) :
    (Utils.MustFormatHashWithPrefix maxLength pre s).data.take pre.length = pre.data := by
  show ((pre.data ++ Utils.toHexFixed (Utils.polyHash s) 16).take maxLength).take pre.length
      = pre.data
  rw [List.take_take, min_eq_left h]
  exact List.take_left pre.data _

/-- C8: `getIfbDeviceName` is a pure function of its two inputs, its output
never exceeds 15 characters, and the output always begins with the fixed
prefix `bwp`. -/
theorem getIfbDeviceName_pure_bounded :
    (∀ net id net2 id2 : String, net = net2 → id = id2 →
      Bandwidth.getIfbDeviceName net id = Bandwidth.getIfbDeviceName net2 id2) ∧
    (∀ net id : String, (Bandwidth.getIfbDeviceName net id).length ≤ 15) ∧
    (∀ net id : String, (Bandwidth.getIfbDeviceName net id).data.take 3 = "bwp".data) := by
  refine ⟨fun net id net2 id2 h1 h2 => by rw [h1, h2], fun net id => ?_, fun net id => ?_⟩
  · exact MustFormatHashWithPrefix_length_le 15 "bwp" (net ++ id)
  · exact MustFormatHashWithPrefix_take_pre 15 "bwp" (net ++ id) (by decide)

/-- C8 witness: the properties at the concrete pair `("net1", "cid1")`. -/
theorem getIfbDeviceName_pure_bounded_witness :
    Bandwidth.getIfbDeviceName "net1" "cid1" = Bandwidth.getIfbDeviceName "net1" "cid1" ∧
      (Bandwidth.getIfbDeviceName "net1" "cid1").length ≤ 15 ∧
      (Bandwidth.getIfbDeviceName "net1" "cid1").data.take 3 = "bwp".data :=
  ⟨getIfbDeviceName_pure_bounded.1 "net1" "cid1" "net1" "cid1" rfl rfl,
    getIfbDeviceName_pure_bounded.2.1 "net1" "cid1",
    getIfbDeviceName_pure_bounded.2.2 "net1" "cid1"⟩

/-- C10: the auxiliary device name is a function of the bare concatenation
`networkName ++ containerID`, so input pairs with equal concatenations get
the same name. -/
theorem getIfbDeviceName_concat (net id net2 id2 : String) (h : net ++ id = net2 ++ id2) :
    Bandwidth.getIfbDeviceName net id = Bandwidth.getIfbDeviceName net2 id2 := by
  simp only [Bandwidth.getIfbDeviceName]
  rw [h]

/-- C10 witness: the distinct pairs `("ab","c")` and `("a","bc")` share one
auxiliary device name. -/
theorem getIfbDeviceName_concat_witness :
    "ab" ++ "c" = "a" ++ "bc" ∧ ("ab", "c") ≠ (("a", "bc") : String × String) ∧
      Bandwidth.getIfbDeviceName "ab" "c" = Bandwidth.getIfbDeviceName "a" "bc" :=
  ⟨rfl, by decide, getIfbDeviceName_concat "ab" "c" "a" "bc" rfl⟩

/-- C9: both deletion helpers return the `ErrLinkNotFound` sentinel exactly
when the lookup reports the link absent; any other lookup error is wrapped
with the lookup context for both variants, an address-capture error in the
addr variant is wrapped with its own context, and a deletion error is
wrapped with the delete context for both variants — never the sentinel. -/
theorem DelLink_notFound_sentinel (env : Ip.LinkEnv) (ifName : String) :
    (Ip.DelLinkByName env ifName = .error .errLinkNotFound ↔
      env.linkByName ifName = .error .linkNotFound) ∧
    (Ip.DelLinkByNameAddr env ifName = .error .errLinkNotFound ↔
      env.linkByName ifName = .error .linkNotFound) ∧
    (∀ e, env.linkByName ifName = .error (.other e) →
      Ip.DelLinkByName env ifName =
          .error (.wrapped ("failed to lookup " ++ ifName ++ ": " ++ e)) ∧
        Ip.DelLinkByNameAddr env ifName =
          .error (.wrapped ("failed to lookup " ++ ifName ++ ": " ++ e))) ∧
    (∀ link e, env.linkByName ifName = .ok link → env.linkDel link = .error e →
      Ip.DelLinkByName env ifName =
        .error (.wrapped ("failed to delete " ++ ifName ++ ": " ++ e))) ∧
    (∀ link e, env.linkByName ifName = .ok link → env.addrList link = .error e →
      Ip.DelLinkByNameAddr env ifName =
        .error (.wrapped ("failed to get IP addresses for " ++ ifName ++ ": " ++ e))) ∧
    (∀ link addrs e, env.linkByName ifName = .ok link → env.addrList link = .ok addrs →
      env.linkDel link = .error e →
      Ip.DelLinkByNameAddr env ifName =
        .error (.wrapped ("failed to delete " ++ ifName ++ ": " ++ e))) := by
  cases henv : env.linkByName ifName with
  | error le =>
    cases le with
    | linkNotFound =>
      refine ⟨?_, ?_, ?_, ?_, ?_, ?_⟩ <;>
        simp [Ip.DelLinkByName, Ip.DelLinkByNameAddr, henv]
    | other e0 =>
      refine ⟨?_, ?_, ?_, ?_, ?_, ?_⟩ <;>
        simp [Ip.DelLinkByName, Ip.DelLinkByNameAddr, henv]
  | ok link0 =>
    refine ⟨?_, ?_, ?_, ?_, ?_, ?_⟩
    · simp only [Ip.DelLinkByName, henv]
      cases hdel : env.linkDel link0 <;> simp
    · simp only [Ip.DelLinkByNameAddr, henv]
      cases haddr : env.addrList link0 with
      | error e => simp
      | ok addrs => cases hdel : env.linkDel link0 <;> simp
    · intro e he
      exact absurd he (by simp)
    · intro link e hl hdel
      have hlink : link0 = link := by injection hl
      subst hlink
      simp [Ip.DelLinkByName, henv, hdel]
    · intro link e hl haddr
      have hlink : link0 = link := by injection hl
      subst hlink
      simp [Ip.DelLinkByNameAddr, henv, haddr]
    · intro link addrs e hl haddr hdel
      have hlink : link0 = link := by injection hl
      subst hlink
      simp [Ip.DelLinkByNameAddr, henv, haddr, hdel]

/-- C9 witness: with a lookup oracle that reports the link absent, both
helpers return the sentinel; and with a successful lookup but a failing
delete, both helpers return the wrapped delete error, not the sentinel. -/
theorem DelLink_notFound_sentinel_witness :
    Ip.DelLinkByName
        { linkByName := fun _ => .error .linkNotFound
          linkDel := fun _ => .ok ()
          addrList := fun _ => .ok []
          ethtoolNew := .ok ()
          ethtoolStats := fun _ => .ok [] } "ifb0" = .error .errLinkNotFound ∧
      Ip.DelLinkByNameAddr
        { linkByName := fun _ => .error .linkNotFound
          linkDel := fun _ => .ok ()
          addrList := fun _ => .ok []
          ethtoolNew := .ok ()
          ethtoolStats := fun _ => .ok [] } "ifb0" = .error .errLinkNotFound ∧
      Ip.DelLinkByName
        { linkByName := fun _ => .ok ⟨"ifb1", false, 1⟩
          linkDel := fun _ => .error "device is busy"
          addrList := fun _ => .ok []
          ethtoolNew := .ok ()
          ethtoolStats := fun _ => .ok [] } "ifb1" =
        .error (.wrapped ("failed to delete " ++ "ifb1" ++ ": " ++ "device is busy")) ∧
      Ip.DelLinkByNameAddr
        { linkByName := fun _ => .ok ⟨"ifb1", false, 1⟩
          linkDel := fun _ => .error "device is busy"
          addrList := fun _ => .ok []
          ethtoolNew := .ok ()
          ethtoolStats := fun _ => .ok [] } "ifb1" =
        .error (.wrapped ("failed to delete " ++ "ifb1" ++ ": " ++ "device is busy")) :=
  ⟨(DelLink_notFound_sentinel _ "ifb0").1.mpr rfl,
    (DelLink_notFound_sentinel _ "ifb0").2.1.mpr rfl,
    (DelLink_notFound_sentinel _ "ifb1").2.2.2.1 ⟨"ifb1", false, 1⟩ "device is busy" rfl rfl,
    (DelLink_notFound_sentinel _ "ifb1").2.2.2.2.2 ⟨"ifb1", false, 1⟩ [] "device is busy"
      rfl rfl rfl⟩

/-- C7: `cmdDel` recomputes the auxiliary device name deterministically from
the network name and container ID and tears it down; when the device is
already absent the command succeeds instead of surfacing NotFound. -/
theorem cmdDel_idempotent (env : Ip.LinkEnv) (args : Bandwidth.CmdArgs)
    (conf : Bandwidth.PluginConf)
    (hparse : Bandwidth.parseConfig conf = .ok conf)
    (habsent : env.linkByName (Bandwidth.getIfbDeviceName conf.name args.containerID) =
      .error .linkNotFound) :
    Bandwidth.cmdDel env args conf =
        Bandwidth.TeardownIfb env (Bandwidth.getIfbDeviceName conf.name args.containerID) ∧
      Bandwidth.cmdDel env args conf = .ok () := by
  have h1 : Bandwidth.cmdDel env args conf =
      Bandwidth.TeardownIfb env (Bandwidth.getIfbDeviceName conf.name args.containerID) := by
    simp [Bandwidth.cmdDel, hparse]
  refine ⟨h1, ?_⟩
  rw [h1]
  simp [Bandwidth.TeardownIfb, Ip.DelLinkByNameAddr, habsent]

/-- C7 witness: Del succeeds on a concrete configuration whose auxiliary
device is absent. -/
theorem cmdDel_idempotent_witness :
    Bandwidth.cmdDel
        { linkByName := fun _ => .error .linkNotFound
          linkDel := fun _ => .ok ()
          addrList := fun _ => .ok []
          ethtoolNew := .ok ()
          ethtoolStats := fun _ => .ok [] }
        ⟨"cid1", "eth0"⟩ ⟨"net1", none, none, none⟩ = .ok () :=
  (cmdDel_idempotent _ ⟨"cid1", "eth0"⟩ ⟨"net1", none, none, none⟩ rfl rfl).2

/-- C4 counterexample: a veth link whose kernel-reported parent index is
40000 makes `GetVethPeerIfindex` return 40000 without error — the
1..32767 range validation is applied only on the ethtool fallback path, so
the claimed range bound fails for the primary path. -/
theorem GetVethPeerIfindex_range_counterexample :
    Ip.GetVethPeerIfindex
        { linkByName := fun _ => .ok ⟨"veth0", true, 40000⟩
          linkDel := fun _ => .ok ()
          addrList := fun _ => .ok []
          ethtoolNew := .ok ()
          ethtoolStats := fun _ => .ok [] }
        "veth0" = .ok (⟨"veth0", true, 40000⟩, 40000) ∧ ¬((40000 : Int) ≤ 32767) :=
  ⟨rfl, by decide⟩

/-- C4 (amended): whenever `GetVethPeerIfindex` returns without error the
peer index is positive, and when it was obtained through the
hardware-offload statistics fallback (kernel-reported parent index absent or
non-positive) it lies in 1..32767 — out-of-range or missing fallback values
are errors; a non-veth link is likewise an error. The kernel-reported parent
index itself is accepted whenever positive, with no upper bound. -/
theorem GetVethPeerIfindex_index_props (env : Ip.LinkEnv) (ifName : String) :
    (∀ link idx, Ip.GetVethPeerIfindex env ifName = .ok (link, idx) →
      0 < idx ∧ (link.parentIndex ≤ 0 → 1 ≤ idx ∧ idx ≤ 32767)) ∧
    (∀ link, env.linkByName ifName = .ok link → link.isVeth = false →
      ∃ e, Ip.GetVethPeerIfindex env ifName = .error e) := by
  constructor
  · intro link idx hok
    unfold Ip.GetVethPeerIfindex at hok
    split at hok
    · exact absurd hok (by simp)
    · rename_i link0 henv
      split at hok
      · exact absurd hok (by simp)
      · rename_i hveth
        split at hok
        · rename_i hpi
          split at hok
          · exact absurd hok (by simp)
          · split at hok
            · exact absurd hok (by simp)
            · split at hok
              · exact absurd hok (by simp)
              · rename_i stats hstats n hn
                split at hok
                · exact absurd hok (by simp)
                · rename_i hrange
                  simp only [Except.ok.injEq, Prod.mk.injEq] at hok
                  obtain ⟨hl, hi⟩ := hok
                  subst hl
                  subst hi
                  simp only [Bool.or_eq_true, not_or, decide_eq_true_eq, gt_iff_lt,
                    beq_iff_eq] at hrange
                  refine ⟨?_, fun _ => ?_⟩ <;> omega
        · rename_i hpi
          simp only [Except.ok.injEq, Prod.mk.injEq] at hok
          obtain ⟨hl, hi⟩ := hok
          subst hl
          subst hi
          refine ⟨by omega, fun hc => absurd hc (by omega)⟩
  · intro link henv hnv
    exact ⟨"interface " ++ ifName ++ " was not a veth interface",
      by simp [Ip.GetVethPeerIfindex, henv, hnv]⟩

/-- C4 witness: a veth with parent index 7 yields index 7, positive; and a
non-veth link is rejected. -/
theorem GetVethPeerIfindex_index_props_witness :
    ((0 : Int) < 7 ∧ ((7 : Int) ≤ 0 → 1 ≤ (7 : Int) ∧ (7 : Int) ≤ 32767)) ∧
      ∃ e, Ip.GetVethPeerIfindex
          { linkByName := fun _ => .ok ⟨"eth0", false, 3⟩
            linkDel := fun _ => .ok ()
            addrList := fun _ => .ok []
            ethtoolNew := .ok ()
            ethtoolStats := fun _ => .ok [] }
          "eth0" = .error e :=
  ⟨(GetVethPeerIfindex_index_props
      { linkByName := fun _ => .ok ⟨"veth1", true, 7⟩
        linkDel := fun _ => .ok ()
        addrList := fun _ => .ok []
        ethtoolNew := .ok ()
        ethtoolStats := fun _ => .ok [] }
      "veth1").1 ⟨"veth1", true, 7⟩ 7 rfl,
    (GetVethPeerIfindex_index_props _ "eth0").2 ⟨"eth0", false, 3⟩ rfl rfl⟩

/-- With no explicit hint, k self-generated collisions (existing peers)
followed by a successful creation give success after exactly k+1 attempts. -/
theorem makeVethFrom_collide_then_ok (env : Ip.VethEnv) (name : String) :
    ∀ k i fuel, k < fuel →
      (∀ j, j < k → env.create (env.randomName (i + j)) = some .isExist ∧
        env.peerExists (env.randomName (i + j)) = true) →
      env.create (env.randomName (i + k)) = none →
      Ip.makeVethFrom env name "" i fuel = (k + 1, .success (env.randomName (i + k))) := by
  intro k
  induction k with
  | zero =>
    intro i fuel hlt _ hok
    match fuel, hlt with
    | f + 1, _ =>
      rw [Nat.add_zero] at hok
      simp [Ip.makeVethFrom, hok]
  | succ k ih =>
    intro i fuel hlt hcoll hok
    match fuel, hlt with
    | f + 1, _ =>
      have h0 := hcoll 0 (by omega)
      rw [Nat.add_zero] at h0
      have hrec := ih (i + 1) f (by omega)
        (fun j hj => by
          have hj2 := hcoll (j + 1) (by omega)
          rwa [show i + (j + 1) = i + 1 + j by omega] at hj2)
        (by rwa [show i + 1 + k = i + (k + 1) by omega])
      have hstep : Ip.makeVethFrom env name "" i (f + 1) =
          ((Ip.makeVethFrom env name "" (i + 1) f).1 + 1,
            (Ip.makeVethFrom env name "" (i + 1) f).2) := by
        simp [Ip.makeVethFrom, h0.1, h0.2]
      rw [hstep, hrec]
      simp [show i + 1 + k = i + (k + 1) by omega]

/-- With no explicit hint and every self-generated name colliding, the loop
performs exactly `fuel` attempts and exhausts. -/
theorem makeVethFrom_all_collide (env : Ip.VethEnv) (name : String) :
    ∀ fuel i,
      (∀ j, j < fuel → env.create (env.randomName (i + j)) = some .isExist ∧
        env.peerExists (env.randomName (i + j)) = true) →
      Ip.makeVethFrom env name "" i fuel = (fuel, .exhausted) := by
  intro fuel
  induction fuel with
  | zero => intro i _; rfl
  | succ f ih =>
    intro i h
    have h0 := h 0 (by omega)
    rw [Nat.add_zero] at h0
    have hrec := ih (i + 1)
      (fun j hj => by
        have hj2 := h (j + 1) (by omega)
        rwa [show i + (j + 1) = i + 1 + j by omega] at hj2)
    simp [Ip.makeVethFrom, h0.1, h0.2, hrec]

/-- C5: with an empty peer-name hint, N (< 10) colliding self-generated
names followed by a non-colliding one give success with the first
non-colliding name after exactly N+1 creation attempts; if every generated
name collides the loop performs exactly 10 attempts and then fails with the
distinct allocation-exhausted outcome; a collision on an explicit hint, or
one where the colliding name was not the self-generated peer, fails
immediately with the collision error after a single attempt. -/
theorem makeVeth_retry_behavior :
    (∀ (env : Ip.VethEnv) (name : String) (N : Nat), N < 10 →
      (∀ i, i < N → env.create (env.randomName i) = some .isExist ∧
        env.peerExists (env.randomName i) = true) →
      env.create (env.randomName N) = none →
      Ip.makeVeth env name "" = (N + 1, .success (env.randomName N))) ∧
    (∀ (env : Ip.VethEnv) (name : String),
      (∀ i, i < 10 → env.create (env.randomName i) = some .isExist ∧
        env.peerExists (env.randomName i) = true) →
      Ip.makeVeth env name "" = (10, .exhausted)) ∧
    (∀ (env : Ip.VethEnv) (name hint : String), hint ≠ "" →
      env.create hint = some .isExist →
      Ip.makeVeth env name hint = (1, .collision name hint)) ∧
    (∀ (env : Ip.VethEnv) (name : String),
      env.create (env.randomName 0) = some .isExist →
      env.peerExists (env.randomName 0) = false →
      Ip.makeVeth env name "" = (1, .collision name (env.randomName 0))) := by
  refine ⟨?_, ?_, ?_, ?_⟩
  · intro env name N hN hcoll hok
    have := makeVethFrom_collide_then_ok env name N 0 10 hN
      (fun j hj => by simpa using hcoll j hj) (by simpa using hok)
    simpa [Ip.makeVeth] using this
  · intro env name hcoll
    have := makeVethFrom_all_collide env name 10 0 (fun j hj => by simpa using hcoll j hj)
    simpa [Ip.makeVeth] using this
  · intro env name hint hne hex
    have hbne : (hint != "") = true := by simpa [bne_iff_ne] using hne
    simp [Ip.makeVeth, Ip.makeVethFrom, hbne, hex, beq_eq_false_iff_ne.mpr hne]
  · intro env name hex hpe
    simp [Ip.makeVeth, Ip.makeVethFrom, hex, hpe]

/-- C5 witness: the four behaviors at concrete oracles — one collision then
success (two attempts), ten collisions then exhaustion, an immediate
explicit-hint collision, and an immediate non-self-generated collision. -/
theorem makeVeth_retry_behavior_witness :
    Ip.makeVeth
        { create := fun s => if s = "a" then some .isExist else none
          randomName := fun i => if i = 0 then "a" else "b"
          peerExists := fun _ => true } "c0" "" = (2, .success "b") ∧
      Ip.makeVeth
        { create := fun _ => some .isExist
          randomName := fun _ => "x"
          peerExists := fun _ => true } "c0" "" = (10, .exhausted) ∧
      Ip.makeVeth
        { create := fun _ => some .isExist
          randomName := fun _ => "x"
          peerExists := fun _ => true } "c0" "h0" = (1, .collision "c0" "h0") ∧
      Ip.makeVeth
        { create := fun _ => some .isExist
          randomName := fun _ => "x"
          peerExists := fun _ => false } "c0" "" = (1, .collision "c0" "x") :=
  ⟨makeVeth_retry_behavior.1 _ "c0" 1 (by omega)
      (fun i hi => by
        have hi0 : i = 0 := by omega
        subst hi0
        exact ⟨rfl, rfl⟩)
      rfl,
    makeVeth_retry_behavior.2.1 _ "c0" (fun i _ => ⟨rfl, rfl⟩),
    makeVeth_retry_behavior.2.2.1 _ "c0" "h0" (by decide) rfl,
    makeVeth_retry_behavior.2.2.2 _ "c0" rfl rfl⟩

